/-
Verification of the Project Pilot catalog store (`src/store.ts`, the
current `ConfigStore` implementation) against its specification.

Modelling conventions:
* JSON documents are shallowly embedded as `JVal`.  A missing object field
  is `Option.none` from `jGet`; JavaScript truthiness is `jTruthy`.
* The store's in-memory state is `StoreState`; optional / possibly-absent
  object fields are `Option`s.  Non-string primitive values sitting in a
  string-typed field of an unvalidated document are modelled as absent.
* File-system effects are abstracted into an event trace (`Ev`): a `save`
  event carries the state it persists, `notify` is the registered change
  callback firing, `backup` is the pre-import backup write, `info`/`warn`
  are user-facing messages.  Whether a callback is registered is a `Bool`.
* `genId()` (impure `Math.random`) is modelled as an injected generator:
  a single string for the single-use sites, an index-to-string function
  for the import loop.
* Backup rotation is modelled separately on directory listings
  (`cleanupOldBackups`, `createBackup`).
-/
import Mathlib

namespace ProjectPilot

/-- Shallow embedding of JSON values (numbers restricted to integers,
which suffices for every claim under consideration). -/
inductive JVal where
  | null : JVal
  | bool (b : Bool) : JVal
  | num (n : Int) : JVal
  | str (s : String) : JVal
  | arr (xs : List JVal) : JVal
  | obj (fs : List (String × JVal)) : JVal

/-- Property access `v.k`: only objects have string-keyed fields; on every
other value (including arrays, whose string properties are undefined)
the result is `undefined`, modelled as `none`. -/
def jGet (v : JVal) (k : String) : Option JVal :=
  match v with
  | .obj fs => fs.lookup k
  | _ => none

/-- JavaScript truthiness of a JSON value. -/
def jTruthy : JVal → Bool
  | .null => false
  | .bool b => b
  | .num n => n != 0
  | .str s => s != ""
  | .arr _ => true
  | .obj _ => true

/-- Truthiness of a possibly-undefined value (`undefined` is falsy). -/
def jTruthyOpt : Option JVal → Bool
  | none => false
  | some v => jTruthy v

/-- `typeof v === 'object'` (arrays and `null` included). -/
def jIsObjType : JVal → Bool
  | .obj _ => true
  | .arr _ => true
  | .null => true
  | _ => false

def asStr? : Option JVal → Option String
  | some (.str s) => some s
  | _ => none

def asBool? : Option JVal → Option Bool
  | some (.bool b) => some b
  | _ => none

def asInt? : Option JVal → Option Int
  | some (.num n) => some n
  | _ => none

def asArr? : Option JVal → Option (List JVal)
  | some (.arr xs) => some xs
  | _ => none

def asStrList? : Option JVal → Option (List String)
  | some (.arr xs) => some (xs.filterMap fun v => asStr? (some v))
  | _ => none

/-- Rendering of a value inside a template literal, as in
`` `invalid type "${project.type}"` ``.  Composite values are rendered
approximately; the claims only exercise primitive cases. -/
def jShow : Option JVal → String
  | none => "undefined"
  | some .null => "null"
  | some (.bool true) => "true"
  | some (.bool false) => "false"
  | some (.num n) => toString n
  | some (.str s) => s
  | some (.arr _) => ""
  | some (.obj _) => "[object Object]"

/-- `ProjectItem` of `store.ts`.  Every field that the TypeScript interface
marks optional -- and also `name`/`path`/`type`, which unvalidated loaded
documents may omit at runtime -- is an `Option`. -/
structure ProjectItem where
  id : Option String := none
  name : Option String := none
  path : Option String := none
  description : Option String := none
  icon : Option String := none
  color : Option String := none
  tags : Option (List String) := none
  group : Option String := none
  type : Option String := none
  isFavorite : Option Bool := none
  clickCount : Option Int := none
  lastAccessed : Option String := none
  deriving DecidableEq, Repr

/-- `UISettings` of `store.ts`. -/
structure UISettings where
  compactMode : Option Bool := none
  viewMode : Option String := none
  selectedGroup : Option String := none
  deriving DecidableEq, Repr

/-- In-memory `State` of `ConfigStore`. -/
structure StoreState where
  projects : List ProjectItem := []
  uiSettings : Option UISettings := none
  deriving DecidableEq, Repr

/-- The default `uiSettings` object the store materialises. -/
def defaultUISettings : UISettings :=
  { compactMode := some false, viewMode := some "grid", selectedGroup := some "" }

/-- The `uiSettings` getter: `this._state.uiSettings || {  defaults }`. -/
def uiSettingsGet (st : StoreState) : UISettings :=
  st.uiSettings.getD defaultUISettings

/-- Abstracted side effects of a store operation, in order of occurrence. -/
inductive Ev where
  | save (st : StoreState) : Ev
  | notify : Ev
  | backup : Ev
  | info : Ev
  | warn : Ev
  deriving DecidableEq, Repr

/-- The `save`-then-maybe-`notify` tail every mutation ends with. -/
def saveNotify (st : StoreState) (cb : Bool) : List Ev :=
  Ev.save st :: (if cb then [Ev.notify] else [])

/-! ## Decoding a parsed JSON document into the typed in-memory state

`JSON.parse(...) as State` performs no validation; reading the parsed
object through the `State` interface corresponds to decoding each field,
with ill-typed values behaving as absent. -/

/-- Decode one element of a parsed `projects` array. -/
def decodeProj (j : JVal) : ProjectItem :=
  { id := asStr? (jGet j "id")
    name := asStr? (jGet j "name")
    path := asStr? (jGet j "path")
    description := asStr? (jGet j "description")
    icon := asStr? (jGet j "icon")
    color := asStr? (jGet j "color")
    tags := asStrList? (jGet j "tags")
    group := asStr? (jGet j "group")
    type := asStr? (jGet j "type")
    isFavorite := asBool? (jGet j "isFavorite")
    clickCount := asInt? (jGet j "clickCount")
    lastAccessed := asStr? (jGet j "lastAccessed") }

/-- Decode a parsed `uiSettings` object. -/
def decodeUI (j : JVal) : UISettings :=
  { compactMode := asBool? (jGet j "compactMode")
    viewMode := asStr? (jGet j "viewMode")
    selectedGroup := asStr? (jGet j "selectedGroup") }

/-- Decode a whole parsed document into a `State`. -/
def decodeState (j : JVal) : StoreState :=
  { projects :=
      match jGet j "projects" with
      | some (.arr xs) => xs.map decodeProj
      | _ => []
    uiSettings :=
      match jGet j "uiSettings" with
      | some (.obj fs) => some (decodeUI (.obj fs))
      | _ => none }

/-! ## Mutation methods

Each operation takes the current state and whether a change callback is
registered (`cb`), and returns the new state together with the emitted
event trace. -/

/-- `addProject`: `p.id = p.id ?? genId()` (nullish coalescing keeps an
empty string), push, save, notify.  `gid` is the injected `genId()`. -/
def addProject (gid : String) (p : ProjectItem) (st : StoreState) (cb : Bool) :
    StoreState × List Ev :=
  let p' := { p with id := some (p.id.getD gid) }
  let st' := { st with projects := st.projects ++ [p'] }
  (st', saveNotify st' cb)

/-- `upsertProject`: `if (!p.id) p.id = genId()` (falsy check also replaces
an empty string), then replace the first entry with the same id, else
append; save; notify. -/
def upsertProject (gid : String) (p : ProjectItem) (st : StoreState) (cb : Bool) :
    StoreState × List Ev :=
  let pid := match p.id with
    | some s => if s = "" then gid else s
    | none => gid
  let p' := { p with id := some pid }
  let st' :=
    match st.projects.findIdx? (fun x => x.id == some pid) with
    | some idx => { st with projects := st.projects.set idx p' }
    | none => { st with projects := st.projects ++ [p'] }
  (st', saveNotify st' cb)

/-- `deleteProject`: keep the entries whose id differs (`p.id !== id`);
save; notify. -/
def deleteProject (id : String) (st : StoreState) (cb : Bool) :
    StoreState × List Ev :=
  let st' := { st with projects := st.projects.filter (fun p => p.id != some id) }
  (st', saveNotify st' cb)

/-- Mutate the first entry accepted by `f` (the object returned by
`Array.prototype.find`), leaving the rest of the list unchanged. -/
def updateFirstMatch (f : ProjectItem → Bool) (g : ProjectItem → ProjectItem) :
    List ProjectItem → List ProjectItem
  | [] => []
  | p :: ps => if f p then g p :: ps else p :: updateFirstMatch f g ps

/-- `recordProjectAccess`: if an entry with the id exists, bump
`clickCount` (`(project.clickCount || 0) + 1`), stamp `lastAccessed` with
the current time (injected as `now`), save, notify; otherwise do nothing. -/
def recordProjectAccess (now : String) (id : String) (st : StoreState) (cb : Bool) :
    StoreState × List Ev :=
  if st.projects.any (fun p => p.id == some id) then
    let st' := { st with
      projects := updateFirstMatch (fun p => p.id == some id)
        (fun p => { p with
          clickCount := some ((p.clickCount.getD 0) + 1)
          lastAccessed := some now }) st.projects }
    (st', saveNotify st' cb)
  else (st, [])

/-- The body of `toggleFavorite` applied to the found entry. -/
def toggleItem (p : ProjectItem) : ProjectItem :=
  let fav := !(p.isFavorite.getD false)
  if fav then
    let tags := p.tags.getD []
    let tags := if tags.contains "favorite" then tags else tags ++ ["favorite"]
    { p with isFavorite := some true, tags := some tags }
  else
    { p with isFavorite := some false
             tags := p.tags.map (List.filter (fun t => t != "favorite")) }

/-- `toggleFavorite`: if an entry with the id exists, flip `isFavorite`
(`!project.isFavorite`, so an absent flag toggles to `true`), reconcile
the `favorite` tag, save, notify; otherwise do nothing. -/
def toggleFavorite (id : String) (st : StoreState) (cb : Bool) :
    StoreState × List Ev :=
  if st.projects.any (fun p => p.id == some id) then
    let st' := { st with
      projects := updateFirstMatch (fun p => p.id == some id) toggleItem st.projects }
    (st', saveNotify st' cb)
  else (st, [])

/-- `{ ...base, ...patch }` on `UISettings`: keys present in the patch win. -/
def mergeUI (base patch : UISettings) : UISettings :=
  { compactMode := patch.compactMode.orElse (fun _ => base.compactMode)
    viewMode := patch.viewMode.orElse (fun _ => base.viewMode)
    selectedGroup := patch.selectedGroup.orElse (fun _ => base.selectedGroup) }

/-- `updateUISettings`: materialise defaults when `uiSettings` is unset,
shallow-merge the partial settings over them, save, notify. -/
def updateUISettings (settings : UISettings) (st : StoreState) (cb : Bool) :
    StoreState × List Ev :=
  let base := st.uiSettings.getD defaultUISettings
  let st' := { st with uiSettings := some (mergeUI base settings) }
  (st', saveNotify st' cb)

/-! ## Reload and the file watcher

The read-and-parse of the backing file is injected as
`Except String JVal`: `.error` models a read or JSON-parse failure
(carrying its message), `.ok` the parsed document. -/

/-- Manual `reload()`: on read/parse failure the error is rethrown; on a
parsed document the state is replaced (and the callback notified) only
when the `projects` field is truthy, and nothing happens otherwise. -/
def reload (doc : Except String JVal) (st : StoreState) (cb : Bool) :
    Except String (StoreState × List Ev) :=
  match doc with
  | .error e => .error e
  | .ok j =>
    if jTruthyOpt (jGet j "projects") then
      .ok (decodeState j, if cb then [Ev.notify] else [])
    else
      .ok (st, [])

/-- The watcher's `onDidChange` handler: same reload logic, but the
catch-all swallows read/parse failures into a warning message, so the
handler never throws into the host (its return type is total). -/
def watcherOnChange (doc : Except String JVal) (st : StoreState) (cb : Bool) :
    StoreState × List Ev :=
  match doc with
  | .error _ => (st, [Ev.warn])
  | .ok j =>
    if jTruthyOpt (jGet j "projects") then
      (decodeState j, Ev.info :: (if cb then [Ev.notify] else []))
    else
      (st, [])

/-! ## Import / normalization engine (`importFromFile`) -/

/-- `a || b` on a possibly-undefined value. -/
def jOr (v : Option JVal) (dflt : JVal) : JVal :=
  if jTruthyOpt v then v.getD dflt else dflt

def isStrOpt : Option JVal → Bool
  | some (.str _) => true
  | _ => false

/-- `Object.values` (own enumerable values in insertion order). -/
def jVals : JVal → List JVal
  | .obj fs => fs.map (·.2)
  | _ => []

/-- The recognized `type` variants. -/
def allowedTypes : List String := ["local", "workspace", "ssh", "ssh-workspace"]

/-- Mapping of one element of a foreign `folders` array:
`name: folder.name || 'Imported Project'`,
`path: folder.path || folder.uri || ''`, fixed workspace type, imported
marker color and tags. -/
def importedFolder (folder : JVal) : JVal :=
  .obj
    [ ("name", jOr (jGet folder "name") (.str "Imported Project"))
    , ("path", jOr (jGet folder "path") (jOr (jGet folder "uri") (.str "")))
    , ("type", .str "workspace")
    , ("color", .str "#10b981")
    , ("tags", .arr [.str "imported", .str "workspace"]) ]

/-- Shape selection of `importFromFile`: ordered attempts, first match
wins -- `projects` array field, the document itself an array, `folders`
array field (mapped), any first array-valued field, else rejection. -/
def selectProjects (incoming : JVal) : Except String (List JVal) :=
  -- `incoming.projects && Array.isArray(incoming.projects)` holds exactly
  -- when the field is an array (an array is always truthy), and likewise
  -- for `folders` below.
  match asArr? (jGet incoming "projects") with
  | some xs => .ok xs
  | none =>
    match incoming with
    | .arr xs => .ok xs
    | _ =>
      match asArr? (jGet incoming "folders") with
      | some fs => .ok (fs.map importedFolder)
      | none =>
        match (jVals incoming).filterMap (fun v => asArr? (some v)) with
        | xs :: _ => .ok xs
        | [] => .error "Invalid config file: no recognizable project data found. Expected { projects: [...] }, [...], or { folders: [...] }"

/-- Model of `atob` acceptance: the payload decodes iff it consists of
base64-alphabet characters.  (The claims never depend on finer `atob`
behavior.) -/
def atobOk (s : String) : Bool :=
  s.toList.all fun c => c.isAlphanum || c == '+' || c == '/' || c == '='

/-- Icon-field sanitization of the import loop: a falsy or non-string
icon becomes `""`; a `data:image/` URL keeps its value unless its
payload (the part after the first comma) is present and fails to decode;
any other non-empty string is cleared. -/
def iconClean (v : Option JVal) : String :=
  match v with
  | some (.str s) =>
    if s = "" then ""
    else if s.startsWith "data:image/" then
      match (s.splitOn ",").get? 1 with
      | some bp => if bp = "" then s else if atobOk bp then s else ""
      | none => s
    else ""
  | _ => ""

/-- Validation and normalization of the entry at index `i` of the
selected array, mirroring one iteration of the import loop.  `gids i` is
the `genId()` result consumed when the entry lacks a truthy id.
Non-string primitives occupying the optional string fields are modelled
as absent (see the header note). -/
def validateEntry (gids : Nat → String) (i : Nat) (j : JVal) :
    Except String ProjectItem :=
  if !(jTruthy j && jIsObjType j) then
    .error ("Invalid project at index " ++ toString i ++ ": not an object")
  else if !(jTruthyOpt (jGet j "name") && isStrOpt (jGet j "name")) then
    .error ("Invalid project at index " ++ toString i ++ ": missing or invalid name")
  else if !(jTruthyOpt (jGet j "path") && isStrOpt (jGet j "path")) then
    .error ("Invalid project at index " ++ toString i ++ ": missing or invalid path")
  else if !(jTruthyOpt (jGet j "type") &&
            (match asStr? (jGet j "type") with
             | some t => allowedTypes.contains t
             | none => false)) then
    .error ("Invalid project at index " ++ toString i ++ ": invalid type \"" ++
      jShow (jGet j "type") ++ "\"")
  else
    .ok
      { id := some (match asStr? (jGet j "id") with
          | some s => if s = "" then gids i else s
          | none => gids i)
        name := asStr? (jGet j "name")
        path := asStr? (jGet j "path")
        description := some ((asStr? (jGet j "description")).getD "")
        icon := some (iconClean (jGet j "icon"))
        color := some (match asStr? (jGet j "color") with
          | some s => if s = "" then "#3b82f6" else s
          | none => "#3b82f6")
        tags := some ((asStrList? (jGet j "tags")).getD [])
        group := asStr? (jGet j "group")
        type := asStr? (jGet j "type")
        isFavorite := asBool? (jGet j "isFavorite")
        clickCount := asInt? (jGet j "clickCount")
        lastAccessed := asStr? (jGet j "lastAccessed") }

/-- The import loop over the whole selected array, starting at index `i`;
the first failing entry aborts the import with its error. -/
def validateAll (gids : Nat → String) : Nat → List JVal → Except String (List ProjectItem)
  | _, [] => .ok []
  | i, j :: js =>
    match validateEntry gids i j with
    | .error e => .error e
    | .ok p =>
      match validateAll gids (i + 1) js with
      | .error e => .error e
      | .ok ps => .ok (p :: ps)

/-- `importFromFile`.  `doc` is the read-and-parse outcome (after the
source's large-file base64-stripping retries): `.error` is a read or
irrecoverable parse failure.  Returns the outcome, the state after the
call, and the emitted events; on any rejection the state is unchanged
and nothing was persisted or notified. -/
def importFromFile (gids : Nat → String) (doc : Except String JVal)
    (st : StoreState) (cb : Bool) :
    Except String Unit × StoreState × List Ev :=
  match doc with
  | .error e => (.error ("Invalid JSON format: " ++ e), st, [])
  | .ok incoming =>
    if !(jTruthy incoming && jIsObjType incoming) then
      (.error "Invalid config file: not a valid JSON object", st, [])
    else
      match selectProjects incoming with
      | .error e => (.error e, st, [])
      | .ok sel =>
        match validateAll gids 0 sel with
        | .error e => (.error e, st, [])
        | .ok projs =>
          let st' : StoreState := { projects := projs }
          (.ok (), st', Ev.backup :: saveNotify st' cb)

/-! ## Export (`exportToFile`) -/

/-- `JSON.stringify` of a `ProjectItem`: fields present when defined
(`undefined` fields are omitted), in interface order. -/
def projToJson (p : ProjectItem) : JVal :=
  .obj
    ((p.id.map fun s => ("id", JVal.str s)).toList ++
     (p.name.map fun s => ("name", JVal.str s)).toList ++
     (p.path.map fun s => ("path", JVal.str s)).toList ++
     (p.description.map fun s => ("description", JVal.str s)).toList ++
     (p.icon.map fun s => ("icon", JVal.str s)).toList ++
     (p.color.map fun s => ("color", JVal.str s)).toList ++
     (p.tags.map fun ts => ("tags", JVal.arr (ts.map .str))).toList ++
     (p.group.map fun s => ("group", JVal.str s)).toList ++
     (p.type.map fun s => ("type", JVal.str s)).toList ++
     (p.isFavorite.map fun b => ("isFavorite", JVal.bool b)).toList ++
     (p.clickCount.map fun n => ("clickCount", JVal.num n)).toList ++
     (p.lastAccessed.map fun s => ("lastAccessed", JVal.str s)).toList)

/-- `JSON.stringify` of the `uiSettings` record. -/
def uiToJson (u : UISettings) : JVal :=
  .obj
    ((u.compactMode.map fun b => ("compactMode", JVal.bool b)).toList ++
     (u.viewMode.map fun s => ("viewMode", JVal.str s)).toList ++
     (u.selectedGroup.map fun s => ("selectedGroup", JVal.str s)).toList)

/-- The document `exportToFile` writes: the spread of the state plus a
`metadata` record. -/
def exportJson (st : StoreState) (exportDate : String) : JVal :=
  .obj
    ([("projects", JVal.arr (st.projects.map projToJson))] ++
     (st.uiSettings.map fun u => ("uiSettings", uiToJson u)).toList ++
     [("metadata", JVal.obj
        [ ("version", .str "1.0.0")
        , ("exportDate", .str exportDate)
        , ("projectCount", .num (st.projects.length : Int)) ])])

/-! ## Backup rotation (`createBackup` / `cleanupOldBackups`)

Modelled on directory listings: a listing is the list of
(filename, entry-type) pairs `readDirectory` returns. -/

inductive FSEntryType where
  | file : FSEntryType
  | dir : FSEntryType
  deriving DecidableEq, Repr

abbrev DirListing := List (String × FSEntryType)

/-- Character-list prefix test; `strStartsWith` below models JavaScript's
`String.prototype.startsWith`. -/
def strHasPrefixChars : List Char → List Char → Bool
  | [], _ => true
  | _ :: _, [] => false
  | c :: cs, d :: ds => c == d && strHasPrefixChars cs ds

def strStartsWith (s pre : String) : Bool :=
  strHasPrefixChars pre.toList s.toList

/-- The filter of `cleanupOldBackups`: plain files named
`projects-backup-*`. -/
def isBackupFile (e : String × FSEntryType) : Bool :=
  e.2 == .file && strStartsWith e.1 "projects-backup-"

/-- One insertion step of sorting by filename descending
(the comparator `([a], [b]) => b.localeCompare(a)`). -/
def insertDesc (x : String × FSEntryType) : DirListing → DirListing
  | [] => [x]
  | y :: ys => if y.1 ≤ x.1 then x :: y :: ys else y :: insertDesc x ys

/-- Sort a listing by filename descending. -/
def sortDescByName (l : DirListing) : DirListing :=
  l.foldr insertDesc []

/-- `cleanupOldBackups`: sort the backup files by name descending and
delete every one past the newest 5 (the remaining directory listing is
the original minus the deleted names); other directory entries are left
alone. -/
def cleanupOldBackups (dirL : DirListing) : DirListing :=
  dirL.filter fun e =>
    !((((sortDescByName (dirL.filter isBackupFile)).drop 5).map (·.1)).contains e.1)

/-- The backup filename for timestamp `t` (already `:`/`.`-sanitized):
`projects-backup-${timestamp}.json`. -/
def backupName (t : String) : String :=
  "projects-backup-" ++ (t ++ ".json")

/-- `createBackup` at timestamp `t`: write the export under the
timestamped name, then prune. -/
def createBackup (t : String) (dirL : DirListing) : DirListing :=
  cleanupOldBackups (dirL ++ [(backupName t, .file)])

/-- A sequence of `createBackup` calls at the given timestamps. -/
def createBackups (ts : List String) (dirL : DirListing) : DirListing :=
  ts.foldl (fun d t => createBackup t d) dirL

/-! # Verified properties -/

/-- Concrete sample entry and state used to instantiate the theorems. -/
def sampleProj : ProjectItem :=
  { id := some "a", name := some "A", path := some "/a", type := some "local" }

def sampleState : StoreState := { projects := [sampleProj] }

/-- The mutate-persist-notify shape of an emitted trace: a prefix `pre`
containing neither a notification nor a persist, then exactly one `save`
carrying the operation's final state (so the in-memory change precedes
the persist), then a single `notify` exactly when a callback is
registered. -/
def MutSeq (pre : List Ev) (st' : StoreState) (cb : Bool) (tr : List Ev) : Prop :=
  Ev.notify ∉ pre ∧ (∀ s, Ev.save s ∉ pre) ∧
    tr = pre ++ Ev.save st' :: (if cb then [Ev.notify] else [])

theorem mutSeq_saveNotify (st' : StoreState) (cb : Bool) :
    MutSeq [] st' cb (saveNotify st' cb) :=
  ⟨by simp, by simp, rfl⟩

/-- Every run of `importFromFile` either commits (backup, then save of the
replaced state, then the conditional notification) or rejects with some
error, leaving the state untouched and the trace empty. -/
theorem importFromFile_cases (gids : Nat → String) (doc : Except String JVal)
    (st : StoreState) (cb : Bool) :
    (∃ projs, importFromFile gids doc st cb =
      (.ok (), { projects := projs },
        Ev.backup :: saveNotify { projects := projs } cb)) ∨
    (∃ e, importFromFile gids doc st cb = (.error e, st, [])) := by
  unfold importFromFile
  cases doc with
  | error e => exact .inr ⟨_, rfl⟩
  | ok incoming =>
    dsimp only
    by_cases hobj : (!(jTruthy incoming && jIsObjType incoming)) = true
    · rw [if_pos hobj]
      exact .inr ⟨_, rfl⟩
    · rw [if_neg hobj]
      cases hsel : selectProjects incoming with
      | error e => exact .inr ⟨_, rfl⟩
      | ok sel =>
        dsimp only
        cases hval : validateAll gids 0 sel with
        | error e => exact .inr ⟨_, rfl⟩
        | ok projs => exact .inl ⟨projs, rfl⟩

/-- **C1**: every mutation operation of the store (`addProject`,
`upsertProject`, `deleteProject`, `recordProjectAccess`,
`toggleFavorite`, `updateUISettings`, and the import's replace-all)
applies the in-memory change first, then persists the resulting state
via `save`, then invokes the registered change callback if one is set;
the callback never fires before the persist step and never fires when no
callback is registered.  The conditional operations
(`recordProjectAccess`/`toggleFavorite` on an absent id, a rejected
import) perform none of the three steps. -/
theorem mutation_persist_then_notify :
    (∀ gid p st cb,
      MutSeq [] (addProject gid p st cb).1 cb (addProject gid p st cb).2) ∧
    (∀ gid p st cb,
      MutSeq [] (upsertProject gid p st cb).1 cb (upsertProject gid p st cb).2) ∧
    (∀ id st cb,
      MutSeq [] (deleteProject id st cb).1 cb (deleteProject id st cb).2) ∧
    (∀ now id st cb,
      (st.projects.any (fun p => p.id == some id) = true →
        MutSeq [] (recordProjectAccess now id st cb).1 cb
          (recordProjectAccess now id st cb).2) ∧
      (st.projects.any (fun p => p.id == some id) = false →
        recordProjectAccess now id st cb = (st, []))) ∧
    (∀ id st cb,
      (st.projects.any (fun p => p.id == some id) = true →
        MutSeq [] (toggleFavorite id st cb).1 cb (toggleFavorite id st cb).2) ∧
      (st.projects.any (fun p => p.id == some id) = false →
        toggleFavorite id st cb = (st, []))) ∧
    (∀ s st cb,
      MutSeq [] (updateUISettings s st cb).1 cb (updateUISettings s st cb).2) ∧
    (∀ gids doc st cb,
      (∀ st' tr, importFromFile gids doc st cb = (.ok (), st', tr) →
        MutSeq [Ev.backup] st' cb tr) ∧
      (∀ e st' tr, importFromFile gids doc st cb = (.error e, st', tr) →
        st' = st ∧ tr = [])) := by
  refine ⟨?_, ?_, ?_, ?_, ?_, ?_, ?_⟩
  · intro gid p st cb; exact mutSeq_saveNotify _ cb
  · intro gid p st cb; exact mutSeq_saveNotify _ cb
  · intro id st cb; exact mutSeq_saveNotify _ cb
  · intro now id st cb
    constructor
    · intro h
      simp only [recordProjectAccess, h, if_true]
      exact mutSeq_saveNotify _ cb
    · intro h
      simp [recordProjectAccess, h]
  · intro id st cb
    constructor
    · intro h
      simp only [toggleFavorite, h, if_true]
      exact mutSeq_saveNotify _ cb
    · intro h
      simp [toggleFavorite, h]
  · intro s st cb; exact mutSeq_saveNotify _ cb
  · intro gids doc st cb
    constructor
    · intro st' tr h
      rcases importFromFile_cases gids doc st cb with ⟨projs, hc⟩ | ⟨e, hc⟩
      · rw [hc] at h
        simp only [Prod.mk.injEq] at h
        obtain ⟨-, h2, h3⟩ := h
        subst h2; subst h3
        exact ⟨by simp, by intro s; simp, rfl⟩
      · rw [hc] at h
        simp at h
    · intro e st' tr h
      rcases importFromFile_cases gids doc st cb with ⟨projs, hc⟩ | ⟨e2, hc⟩
      · rw [hc] at h
        simp at h
      · rw [hc] at h
        simp only [Prod.mk.injEq] at h
        exact ⟨h.2.1.symm, h.2.2.symm⟩

/-- Instantiation of the C1 theorem's conditional clauses at a concrete
store: a `recordProjectAccess` hit on the sample state follows the
mutate-persist-notify shape. -/
theorem mutation_persist_then_notify_witness :
    MutSeq [] (recordProjectAccess "2025-01-01" "a" sampleState true).1 true
      (recordProjectAccess "2025-01-01" "a" sampleState true).2 :=
  (mutation_persist_then_notify.2.2.2.1 "2025-01-01" "a" sampleState true).1
    (by decide)

/-- Every error the per-entry validation can produce names the offending
index, and its tail names the offending field (`not an object`,
`name`, `path`, or `type` together with the rendered offending value). -/
theorem validateEntry_error_names_index (gids : Nat → String) (i : Nat) (j : JVal)
    (m : String) (h : validateEntry gids i j = .error m) :
    m = "Invalid project at index " ++ toString i ++ ": not an object" ∨
    m = "Invalid project at index " ++ toString i ++ ": missing or invalid name" ∨
    m = "Invalid project at index " ++ toString i ++ ": missing or invalid path" ∨
    ∃ v, m = "Invalid project at index " ++ toString i ++ ": invalid type \"" ++
      v ++ "\"" := by
  unfold validateEntry at h
  split at h
  · simp only [Except.error.injEq] at h
    exact .inl h.symm
  · split at h
    · simp only [Except.error.injEq] at h
      exact .inr (.inl h.symm)
    · split at h
      · simp only [Except.error.injEq] at h
        exact .inr (.inr (.inl h.symm))
      · split at h
        · simp only [Except.error.injEq] at h
          exact .inr (.inr (.inr ⟨_, h.symm⟩))
        · simp at h

/-- If the entries before index `i` validate and the entry at `i` fails,
the whole import loop fails with the entry's error. -/
theorem validateAll_error_of_first (gids : Nat → String) :
    ∀ (l : List JVal) (k i : Nat) (m : String) (hi : i < l.length),
      (∀ jj (hjj : jj < i), ∃ p,
        validateEntry gids (k + jj) (l.get ⟨jj, Nat.lt_trans hjj hi⟩) = .ok p) →
      validateEntry gids (k + i) (l.get ⟨i, hi⟩) = .error m →
      validateAll gids k l = .error m := by
  intro l
  induction l with
  | nil =>
    intro k i m hi
    simp at hi
  | cons b rest ih =>
    intro k i m hi hpre hcur
    cases i with
    | zero =>
      unfold validateAll
      have hb : validateEntry gids k b = .error m := by simpa using hcur
      rw [hb]
    | succ i' =>
      obtain ⟨p, hp⟩ := hpre 0 (Nat.succ_pos i')
      have hb : validateEntry gids k b = .ok p := by simpa using hp
      unfold validateAll
      rw [hb]
      dsimp only
      have hrest : validateAll gids (k + 1) rest = .error m := by
        have hi' : i' < rest.length := Nat.lt_of_succ_lt_succ hi
        apply ih (k + 1) i' m hi'
        · intro jj hjj
          obtain ⟨q, hq⟩ := hpre (jj + 1) (Nat.succ_lt_succ hjj)
          refine ⟨q, ?_⟩
          have harith : k + (jj + 1) = k + 1 + jj := by omega
          rw [← harith]
          simpa using hq
        · have harith : k + (i' + 1) = k + 1 + i' := by omega
          rw [← harith]
          simpa using hcur
      rw [hrest]

/-- **C2**: a malformed import document (read/parse failure, or a parsed
document that is not an object), or one whose selected entry list
contains an invalid entry (the first offender being a non-object, or
having a missing/empty/non-string `name` or `path`, or a `type` outside
the recognized variants) makes `importFromFile` reject the whole import
with an error naming the offending index and field; the in-memory state
is returned unchanged, nothing is saved, no backup is taken and no
change callback fires. -/
theorem import_rejects_invalid :
    (∀ (gids : Nat → String) e st cb,
      importFromFile gids (.error e) st cb =
        (.error ("Invalid JSON format: " ++ e), st, [])) ∧
    (∀ (gids : Nat → String) (j : JVal) st cb,
      (jTruthy j && jIsObjType j) = false →
      importFromFile gids (.ok j) st cb =
        (.error "Invalid config file: not a valid JSON object", st, [])) ∧
    (∀ (gids : Nat → String) (j : JVal) st cb sel i m (hi : i < sel.length),
      (jTruthy j && jIsObjType j) = true →
      selectProjects j = .ok sel →
      (∀ jj (hjj : jj < i), ∃ p,
        validateEntry gids jj (sel.get ⟨jj, Nat.lt_trans hjj hi⟩) = .ok p) →
      validateEntry gids i (sel.get ⟨i, hi⟩) = .error m →
      importFromFile gids (.ok j) st cb = (.error m, st, []) ∧
      (m = "Invalid project at index " ++ toString i ++ ": not an object" ∨
       m = "Invalid project at index " ++ toString i ++ ": missing or invalid name" ∨
       m = "Invalid project at index " ++ toString i ++ ": missing or invalid path" ∨
       ∃ v, m = "Invalid project at index " ++ toString i ++ ": invalid type \"" ++
         v ++ "\"")) := by
  refine ⟨?_, ?_, ?_⟩
  · intro gids e st cb
    rfl
  · intro gids j st cb h
    unfold importFromFile
    dsimp only
    rw [if_pos (by rw [h]; rfl)]
  · intro gids j st cb sel i m hi hobj hsel hpre hcur
    have hval : validateAll gids 0 sel = .error m := by
      apply validateAll_error_of_first gids sel 0 i m hi
      · intro jj hjj
        obtain ⟨p, hp⟩ := hpre jj hjj
        exact ⟨p, by simpa using hp⟩
      · simpa using hcur
    constructor
    · unfold importFromFile
      dsimp only
      rw [if_neg (by rw [hobj]; simp), hsel]
      dsimp only
      rw [hval]
    · exact validateEntry_error_names_index gids i _ m hcur

/-- Instantiation of C2 at the spec's own example document
`{"projects": [{"name": "x"}]}`: the import is rejected naming index 0
and field `path`, and the state is untouched with no events emitted. -/
theorem import_rejects_invalid_witness :
    importFromFile (fun _ => "gen0")
      (.ok (JVal.obj [("projects", JVal.arr [JVal.obj [("name", JVal.str "x")]])]))
      sampleState true =
    (.error "Invalid project at index 0: missing or invalid path", sampleState, []) :=
  (import_rejects_invalid.2.2 (fun _ => "gen0")
    (JVal.obj [("projects", JVal.arr [JVal.obj [("name", JVal.str "x")]])])
    sampleState true [JVal.obj [("name", JVal.str "x")]] 0
    "Invalid project at index 0: missing or invalid path"
    (by decide) rfl rfl
    (fun jj hjj => absurd hjj (Nat.not_lt_zero jj))
    (by rfl)).1

/-- **C4 (counterexample)**: `reload()` on a file that parses to `{}` --
valid JSON with no `projects` field -- does *not* propagate an error: it
returns successfully, silently leaving the state unchanged and firing
nothing, contrary to the claim that every non-replacing reload is
rejected with an error. -/
theorem reload_missing_projects_counterexample :
    reload (.ok (JVal.obj [])) sampleState true = .ok (sampleState, []) := rfl

/-- **C4 (amended)**: `reload()` replaces the in-memory state (and fires
the registered callback) when the file parses and its `projects` field
is truthy; a read or parse failure propagates as an error with the state
unchanged; but a parsed document without a truthy `projects` field makes
`reload()` return *successfully* while changing nothing and notifying
nobody -- no error surfaces in that case. -/
theorem reload_behavior :
    (∀ (j : JVal) st cb, jTruthyOpt (jGet j "projects") = true →
      reload (.ok j) st cb = .ok (decodeState j, if cb then [Ev.notify] else [])) ∧
    (∀ (j : JVal) st cb, jTruthyOpt (jGet j "projects") = false →
      reload (.ok j) st cb = .ok (st, [])) ∧
    (∀ e st cb, reload (.error e) st cb = .error e) := by
  refine ⟨?_, ?_, ?_⟩
  · intro j st cb h
    simp [reload, h]
  · intro j st cb h
    simp [reload, h]
  · intro e st cb
    rfl

/-- Instantiation of the amended C4 at concrete inputs: a document with a
`projects` array replaces the state and notifies; a read failure
propagates. -/
theorem reload_behavior_witness :
    reload (.ok (JVal.obj [("projects", JVal.arr [])])) sampleState true =
      .ok (decodeState (JVal.obj [("projects", JVal.arr [])]),
        if true then [Ev.notify] else []) ∧
    reload (.error "ENOENT") sampleState true = .error "ENOENT" :=
  ⟨reload_behavior.1 (JVal.obj [("projects", JVal.arr [])]) sampleState true rfl,
   reload_behavior.2.2 "ENOENT" sampleState true⟩

/-- **C5**: the watcher's reconciliation handler replaces the in-memory
state wholesale and fires exactly one change notification (when a
callback is registered) on new content that is valid JSON with a truthy
`projects` field; on content that fails to parse it keeps the state,
fires no notification and surfaces exactly one non-fatal warning.  The
handler's total return type reflects that it never throws into the
host. -/
theorem watcher_reconciliation :
    (∀ (j : JVal) st cb, jTruthyOpt (jGet j "projects") = true →
      (watcherOnChange (.ok j) st cb).1 = decodeState j ∧
      (watcherOnChange (.ok j) st cb).2.count Ev.notify = (if cb then 1 else 0) ∧
      (watcherOnChange (.ok j) st cb).2.count Ev.warn = 0) ∧
    (∀ e st cb,
      (watcherOnChange (.error e) st cb).1 = st ∧
      (watcherOnChange (.error e) st cb).2.count Ev.notify = 0 ∧
      (watcherOnChange (.error e) st cb).2 = [Ev.warn]) := by
  constructor
  · intro j st cb h
    cases cb <;> simp [watcherOnChange, h]
  · intro e st cb
    refine ⟨rfl, ?_, rfl⟩
    simp [watcherOnChange]

/-- Instantiation of C5: an external edit to
`{"projects": []}` replaces the state and notifies exactly once; an edit
to invalid JSON leaves the sample state untouched with only a warning. -/
theorem watcher_reconciliation_witness :
    (watcherOnChange (.ok (JVal.obj [("projects", JVal.arr [])])) sampleState true).1 =
      decodeState (JVal.obj [("projects", JVal.arr [])]) ∧
    (watcherOnChange (.ok (JVal.obj [("projects", JVal.arr [])])) sampleState
      true).2.count Ev.notify = (if true then 1 else 0) ∧
    (watcherOnChange (.error "SyntaxError") sampleState true).1 = sampleState :=
  ⟨(watcher_reconciliation.1 (JVal.obj [("projects", JVal.arr [])]) sampleState
      true rfl).1,
   (watcher_reconciliation.1 (JVal.obj [("projects", JVal.arr [])]) sampleState
      true rfl).2.1,
   (watcher_reconciliation.2 "SyntaxError" sampleState true).1⟩

/-- **C10**: a committed import replaces the whole state object with one
holding only the selected projects, so `uiSettings` is dropped (absent
afterwards, and the getter then reads back the built-in defaults),
whereas every other mutation preserves the field it does not target:
`updateUISettings` keeps `projects`, and the project mutations keep
`uiSettings`. -/
theorem import_replaces_state_frame :
    (∀ (gids : Nat → String) doc st cb st' tr,
      importFromFile gids doc st cb = (.ok (), st', tr) →
      st'.uiSettings = none ∧ uiSettingsGet st' = defaultUISettings) ∧
    (∀ s st cb, (updateUISettings s st cb).1.projects = st.projects) ∧
    (∀ gid p st cb, (addProject gid p st cb).1.uiSettings = st.uiSettings) ∧
    (∀ gid p st cb, (upsertProject gid p st cb).1.uiSettings = st.uiSettings) ∧
    (∀ id st cb, (deleteProject id st cb).1.uiSettings = st.uiSettings) ∧
    (∀ now id st cb,
      (recordProjectAccess now id st cb).1.uiSettings = st.uiSettings) ∧
    (∀ id st cb, (toggleFavorite id st cb).1.uiSettings = st.uiSettings) := by
  refine ⟨?_, ?_, ?_, ?_, ?_, ?_, ?_⟩
  · intro gids doc st cb st' tr h
    rcases importFromFile_cases gids doc st cb with ⟨projs, hc⟩ | ⟨e, hc⟩
    · rw [hc] at h
      simp only [Prod.mk.injEq] at h
      obtain ⟨-, h2, -⟩ := h
      subst h2
      exact ⟨rfl, rfl⟩
    · rw [hc] at h
      simp at h
  · intro s st cb; rfl
  · intro gid p st cb; rfl
  · intro gid p st cb
    unfold upsertProject
    dsimp only
    split <;> rfl
  · intro id st cb; rfl
  · intro now id st cb
    unfold recordProjectAccess
    split <;> rfl
  · intro id st cb
    unfold toggleFavorite
    split <;> rfl

/-- A sample state that carries non-default ui settings. -/
def uiState : StoreState :=
  { projects := [sampleProj]
    uiSettings := some
      { compactMode := some true, viewMode := some "list", selectedGroup := some "g" } }

/-- Instantiation of C10's import clause: importing `{"projects": []}`
over a state carrying ui settings drops them, and the getter falls back
to the defaults. -/
theorem import_replaces_state_frame_witness :
    (importFromFile (fun _ => "g0") (.ok (JVal.obj [("projects", JVal.arr [])]))
      uiState true).2.1.uiSettings = none ∧
    uiSettingsGet (importFromFile (fun _ => "g0")
      (.ok (JVal.obj [("projects", JVal.arr [])])) uiState true).2.1 =
      defaultUISettings :=
  import_replaces_state_frame.1 (fun _ => "g0")
    (.ok (JVal.obj [("projects", JVal.arr [])])) uiState true _ _ rfl

/-- `Array.prototype.find` + in-place mutation updates exactly the first
matching element. -/
theorem updateFirstMatch_append (f : ProjectItem → Bool) (g : ProjectItem → ProjectItem)
    (l1 : List ProjectItem) (p : ProjectItem) (l2 : List ProjectItem)
    (h1 : ∀ q ∈ l1, f q = false) (hp : f p = true) :
    updateFirstMatch f g (l1 ++ p :: l2) = l1 ++ g p :: l2 := by
  induction l1 with
  | nil => simp [updateFirstMatch, hp]
  | cons a l1' ih =>
    have ha : f a = false := h1 a (List.mem_cons_self a l1')
    have ih' := ih (fun q hq => h1 q (List.mem_cons_of_mem a hq))
    simp [updateFirstMatch, ha, ih']

/-- An entry whose `tags` already contain the `favorite` tag twice (such
states are importable, since import passes string tags through
unmodified). -/
def dupFavProj : ProjectItem :=
  { id := some "d"
    name := some "D"
    path := some "/d"
    type := some "local"
    isFavorite := some false
    tags := some ["favorite", "favorite"] }

def dupFavState : StoreState := { projects := [dupFavProj] }

/-- **C7 (counterexample)**: after `toggleFavorite "d"` on the state whose
single entry carries `tags = ["favorite", "favorite"]` and
`isFavorite = false`, the flag is on but the `favorite` tag occurs twice,
not exactly once. -/
theorem toggleFavorite_duplicate_tag_counterexample :
    ((toggleFavorite "d" dupFavState true).1.projects.map
      (fun p => (p.isFavorite, (p.tags.getD []).count "favorite"))) =
      [(some true, 2)] := by decide

/-- **C7 (amended)**: for the first entry matching the toggled id, after
`toggleFavorite` returns: `isFavorite` is the negation of its previous
(default-false) value; when turned on the `favorite` tag is present and
no duplicate is *added* (its count becomes `max previous 1`, so exactly
once unless duplicates already existed before the call); when turned off
the tag is absent; the flag and the tag's presence agree; and `group` is
unchanged.  Other entries are untouched. -/
theorem toggleFavorite_flag_tag (st : StoreState) (id : String) (cb : Bool)
    (l1 : List ProjectItem) (p : ProjectItem) (l2 : List ProjectItem)
    (hsplit : st.projects = l1 ++ p :: l2)
    (hl1 : ∀ q ∈ l1, (q.id == some id) = false)
    (hp : (p.id == some id) = true) :
    ∃ q, (toggleFavorite id st cb).1.projects = l1 ++ q :: l2 ∧
      q.isFavorite = some (!(p.isFavorite.getD false)) ∧
      (q.isFavorite = some true →
        "favorite" ∈ q.tags.getD [] ∧
        (q.tags.getD []).count "favorite" =
          max ((p.tags.getD []).count "favorite") 1) ∧
      (q.isFavorite = some false → "favorite" ∉ q.tags.getD []) ∧
      (q.isFavorite = some true ↔ "favorite" ∈ q.tags.getD []) ∧
      q.group = p.group := by
  have hany : st.projects.any (fun r => r.id == some id) = true := by
    rw [hsplit]
    exact List.any_eq_true.mpr ⟨p, by simp, hp⟩
  have hproj : (toggleFavorite id st cb).1.projects = l1 ++ toggleItem p :: l2 := by
    simp only [toggleFavorite, hany, if_true]
    rw [hsplit]
    exact updateFirstMatch_append _ _ l1 p l2 hl1 hp
  by_cases hfav : p.isFavorite.getD false = true
  · -- favorite was on; the call turns it off
    have ht : toggleItem p =
        { p with
          isFavorite := some false
          tags := p.tags.map (List.filter (fun t => t != "favorite")) } := by
      simp [toggleItem, hfav]
    refine ⟨_, by rw [hproj, ht], ?_, ?_, ?_, ?_, ?_⟩
    · simp [hfav]
    · simp
    · intro _
      cases p.tags <;> simp [List.mem_filter]
    · cases p.tags <;> simp [List.mem_filter]
    · rfl
  · -- favorite was off; the call turns it on
    have hfav' : p.isFavorite.getD false = false := by simpa using hfav
    by_cases hcont : (p.tags.getD []).contains "favorite" = true
    · have hmem : "favorite" ∈ p.tags.getD [] := List.elem_iff.mp hcont
      have hpos : 0 < (p.tags.getD []).count "favorite" :=
        List.count_pos_iff.mpr hmem
      have ht : toggleItem p =
          { p with
            isFavorite := some true
            tags := some (p.tags.getD []) } := by
        simp [toggleItem, hfav', hcont, hmem]
      refine ⟨_, by rw [hproj, ht], ?_, ?_, ?_, ?_, ?_⟩
      · simp [hfav']
      · exact fun _ => ⟨hmem, (Nat.max_eq_left hpos).symm⟩
      · simp
      · simp [hmem]
      · rfl
    · have hcont' : (p.tags.getD []).contains "favorite" = false := by
        simpa using hcont
      have hmem : "favorite" ∉ p.tags.getD [] := fun hm =>
        absurd (List.elem_eq_true_of_mem hm) hcont
      have hzero : (p.tags.getD []).count "favorite" = 0 :=
        List.count_eq_zero.mpr hmem
      have ht : toggleItem p =
          { p with
            isFavorite := some true
            tags := some (p.tags.getD [] ++ ["favorite"]) } := by
        simp [toggleItem, hfav', hcont', hmem]
      refine ⟨_, by rw [hproj, ht], ?_, ?_, ?_, ?_, ?_⟩
      · simp [hfav']
      · refine fun _ => ⟨by simp, ?_⟩
        simp [hzero]
      · simp
      · simp
      · rfl

/-- Instantiation of the amended C7 at the sample state (entry `a`,
no tags, favorite off). -/
theorem toggleFavorite_flag_tag_witness :
    ∃ q, (toggleFavorite "a" sampleState true).1.projects = [] ++ q :: [] ∧
      q.isFavorite = some (!(sampleProj.isFavorite.getD false)) ∧
      (q.isFavorite = some true →
        "favorite" ∈ q.tags.getD [] ∧
        (q.tags.getD []).count "favorite" =
          max ((sampleProj.tags.getD []).count "favorite") 1) ∧
      (q.isFavorite = some false → "favorite" ∉ q.tags.getD []) ∧
      (q.isFavorite = some true ↔ "favorite" ∈ q.tags.getD []) ∧
      q.group = sampleProj.group :=
  toggleFavorite_flag_tag sampleState "a" true [] sampleProj [] rfl
    (fun q hq => absurd hq (List.not_mem_nil q)) (by decide)

/-- **C8 (counterexample)**: `addProject` never checks id uniqueness: adding
an entry that carries the id of an existing entry stores it as-is, so the
collection ends up with two entries of id `"a"` -- the stored entry's id
is not unique across the collection. -/
theorem addProject_unique_id_counterexample :
    ¬ ((addProject "g1" sampleProj sampleState true).1.projects.map (·.id)).Nodup := by
  decide

/-- **C8 (amended)**: `addProject` appends the entry with
`id = caller's id ?? genId()`: the stored entry always *has* an id (the
generated one exactly when the caller's was absent), but neither
non-emptiness nor uniqueness of a caller-supplied id is checked, and the
generated id is used without any collision check against existing
entries. -/
theorem addProject_id_assignment :
    ∀ gid p st cb,
      (addProject gid p st cb).1.projects =
        st.projects ++ [{ p with id := some (p.id.getD gid) }] ∧
      (addProject gid p st cb).1.projects.getLast? =
        some { p with id := some (p.id.getD gid) } := by
  intro gid p st cb
  exact ⟨rfl, by simp [addProject]⟩

/-- The folders mapping as the specification words it: `path` taken from
the element's `name`/`uri` field (the code instead takes `path`/`uri`).
This definition follows the spec's words, for comparison against
`importedFolder`, which is translated from the source. -/
def importedFolderSpec (folder : JVal) : JVal :=
  .obj
    [ ("name", jOr (jGet folder "name") (.str "Imported Project"))
    , ("path", jOr (jGet folder "name") (jOr (jGet folder "uri") (.str "")))
    , ("type", .str "workspace")
    , ("color", .str "#10b981")
    , ("tags", .arr [.str "imported", .str "workspace"]) ]

/-- A workspace-folder element carrying a `name` and a `uri` but no
`path`, and a document wrapping it in a `folders` array. -/
def foldersCexElem : JVal := .obj [("name", .str "F"), ("uri", .str "u")]

def foldersCexDoc : JVal := .obj [("folders", .arr [foldersCexElem])]

/-- **C6 (counterexample)**: importing
`{"folders": [{"name": "F", "uri": "u"}]}` stores an entry whose path is
`"u"` -- the code maps `path` from the element's `path`/`uri` fields --
while the claim's "path from the element's name/uri field" predicts
`"F"` (the spec-worded mapping `importedFolderSpec` indeed yields `"F"`). -/
theorem import_folders_path_counterexample :
    ((importFromFile (fun _ => "g0") (.ok foldersCexDoc)
        { projects := [] } true).2.1.projects.map (·.path)) = [some "u"] ∧
    (decodeProj (importedFolderSpec foldersCexElem)).path = some "F" ∧
    [some "u"] ≠ [some ("F" : String)] := by
  refine ⟨rfl, rfl, by decide⟩

/-- **C6 (amended)**: shape selection proceeds as ordered attempts with
the first match winning: (1) an object with a `projects` array field uses
that array; (2) a document that is itself an array is used as the
projects array; (3) an object with a `folders` array field maps each
element to an entry with workspace type, `name` from the element's `name`
field (default "Imported Project"), `path` from the element's
*`path`/`uri`* field, and the fixed imported-marker color and tags;
(4) otherwise the first array-valued field among the object's values is
used; (5) if none yields an array the import is rejected naming the
expected shapes.  Importing `{"folders": [{"name": "F", "path": "/ws"}]}`
produces exactly one entry with workspace type and the imported-marker
color and tags. -/
theorem import_shape_selection :
    (∀ (j : JVal) xs, asArr? (jGet j "projects") = some xs →
      selectProjects j = .ok xs) ∧
    (∀ xs, selectProjects (.arr xs) = .ok xs) ∧
    (∀ (j : JVal) fs, asArr? (jGet j "projects") = none →
      (∀ ys, j ≠ .arr ys) →
      asArr? (jGet j "folders") = some fs →
      selectProjects j = .ok (fs.map importedFolder)) ∧
    (∀ folder,
      jGet (importedFolder folder) "type" = some (.str "workspace") ∧
      jGet (importedFolder folder) "name" =
        some (jOr (jGet folder "name") (.str "Imported Project")) ∧
      jGet (importedFolder folder) "path" =
        some (jOr (jGet folder "path") (jOr (jGet folder "uri") (.str ""))) ∧
      jGet (importedFolder folder) "color" = some (.str "#10b981") ∧
      jGet (importedFolder folder) "tags" =
        some (.arr [.str "imported", .str "workspace"])) ∧
    (∀ (j : JVal) xs rest, asArr? (jGet j "projects") = none →
      (∀ ys, j ≠ .arr ys) →
      asArr? (jGet j "folders") = none →
      (jVals j).filterMap (fun v => asArr? (some v)) = xs :: rest →
      selectProjects j = .ok xs) ∧
    (∀ (j : JVal), asArr? (jGet j "projects") = none →
      (∀ ys, j ≠ .arr ys) →
      asArr? (jGet j "folders") = none →
      (jVals j).filterMap (fun v => asArr? (some v)) = [] →
      selectProjects j = .error "Invalid config file: no recognizable project data found. Expected { projects: [...] }, [...], or { folders: [...] }") ∧
    (∀ (gids : Nat → String) st cb,
      (importFromFile gids
        (.ok (.obj [("folders",
          .arr [.obj [("name", .str "F"), ("path", .str "/ws")]])]))
        st cb).2.1.projects.map
          (fun p => (p.name, p.path, p.type, p.color, p.tags)) =
      [(some "F", some "/ws", some "workspace", some "#10b981",
        some ["imported", "workspace"])]) := by
  refine ⟨?_, ?_, ?_, ?_, ?_, ?_, ?_⟩
  · intro j xs h
    unfold selectProjects
    rw [h]
  · intro xs
    rfl
  · intro j fs h1 h2 h3
    unfold selectProjects
    rw [h1]
    cases j <;> first
      | exact absurd rfl (h2 _)
      | (dsimp only; rw [h3])
  · intro folder
    exact ⟨rfl, rfl, rfl, rfl, rfl⟩
  · intro j xs rest h1 h2 h3 h4
    unfold selectProjects
    rw [h1]
    cases j <;> first
      | exact absurd rfl (h2 _)
      | (dsimp only; rw [h3]; dsimp only; rw [h4])
  · intro j h1 h2 h3 h4
    unfold selectProjects
    rw [h1]
    cases j <;> first
      | exact absurd rfl (h2 _)
      | (dsimp only; rw [h3]; dsimp only; rw [h4])
  · intro gids st cb
    rfl

/-- Instantiation of the amended C6's conditional clauses: the `folders`
branch fires on the counterexample document (projects field absent, not
an array, folders present). -/
theorem import_shape_selection_witness :
    selectProjects foldersCexDoc = .ok ([foldersCexElem].map importedFolder) :=
  import_shape_selection.2.2.1 foldersCexDoc [foldersCexElem] rfl
    (fun ys h => by simp [foldersCexDoc] at h) rfl

/-! ## Round trip: export followed by import -/

theorem lookup_chunk_ne {α β : Type} (k k' : String) (h : (k == k') = false)
    (f : α → β) (v : Option α) (rest : List (String × β)) :
    ((v.map fun x => (k', f x)).toList ++ rest).lookup k = rest.lookup k := by
  cases v <;> simp [List.lookup, h]

theorem lookup_chunk_self {α β : Type} (k : String) (f : α → β) (v : Option α)
    (rest : List (String × β)) (hrest : rest.lookup k = none) :
    ((v.map fun x => (k, f x)).toList ++ rest).lookup k = v.map f := by
  cases v <;> simp [List.lookup, hrest]

theorem lookup_chunk_last {α β : Type} (k : String) (f : α → β) (v : Option α) :
    ((v.map fun x => (k, f x)).toList).lookup k = v.map f := by
  cases v <;> simp [List.lookup]

theorem lookup_chunk_last_ne {α β : Type} (k k' : String) (h : (k == k') = false)
    (f : α → β) (v : Option α) :
    ((v.map fun x => (k', f x)).toList).lookup k = none := by
  cases v <;> simp [List.lookup, h]

theorem asStr?_map_str (v : Option String) : asStr? (v.map JVal.str) = v := by
  cases v <;> rfl

theorem asStr?_some_str (s : String) : asStr? (some (.str s)) = some s := rfl

theorem asStrList?_some_arr (xs : List JVal) :
    asStrList? (some (.arr xs)) =
      some (xs.filterMap fun v => asStr? (some v)) := rfl

theorem asBool?_map_bool (v : Option Bool) : asBool? (v.map JVal.bool) = v := by
  cases v <;> rfl

theorem asInt?_map_num (v : Option Int) : asInt? (v.map JVal.num) = v := by
  cases v <;> rfl

theorem filterMap_asStr_map_str (ts : List String) :
    (ts.map JVal.str).filterMap (fun v => asStr? (some v)) = ts := by
  induction ts with
  | nil => rfl
  | cons a l ih =>
    rw [List.map_cons, List.filterMap_cons]
    show a :: (List.map JVal.str l).filterMap (fun v => asStr? (some v)) = a :: l
    rw [ih]

/-- An entry is import-normalized: its required fields are non-empty
strings with a recognized type, its id/color are non-empty, its
tags/description are materialized, and its icon is a fixed point of the
icon sanitizer.  The import loop produces only such entries, and on them
the loop's validation and normalization is the identity. -/
def NormalizedItem (p : ProjectItem) : Prop :=
  (∃ n, p.name = some n ∧ n ≠ "") ∧
  (∃ pa, p.path = some pa ∧ pa ≠ "") ∧
  (∃ t, p.type = some t ∧ t ∈ allowedTypes) ∧
  (∃ i, p.id = some i ∧ i ≠ "") ∧
  (∃ c, p.color = some c ∧ c ≠ "") ∧
  p.tags.isSome = true ∧
  p.description.isSome = true ∧
  (∃ ic, p.icon = some ic ∧ iconClean (some (.str ic)) = ic)

/-- Validating the JSON serialization of a normalized entry accepts and
reproduces the entry unchanged. -/
theorem validateEntry_projToJson (gids : Nat → String) (i : Nat) (p : ProjectItem)
    (hn : NormalizedItem p) :
    validateEntry gids i (projToJson p) = .ok p := by
  obtain ⟨⟨n, hname, hn0⟩, ⟨pa, hpath, hpa0⟩, ⟨t, htype, ht0⟩, ⟨idv, hid, hid0⟩,
    ⟨c, hcolor, hc0⟩, htags, hdesc, ⟨ic, hicon, hicclean⟩⟩ := hn
  obtain ⟨ts, hts⟩ := Option.isSome_iff_exists.mp htags
  obtain ⟨d, hd⟩ := Option.isSome_iff_exists.mp hdesc
  obtain ⟨pid, pname, ppath, pdesc, picon, pcolor, ptags, pgroup, ptype, pfav,
    pcc, pla⟩ := p
  simp only at hname hpath htype hid hcolor hts hd hicon hicclean
  subst hname hpath htype hid hcolor hts hd hicon
  have hgets :
      jGet (projToJson ⟨some idv, some n, some pa, some d, some ic, some c,
        some ts, pgroup, some t, pfav, pcc, pla⟩) "id" = some (.str idv) ∧
      jGet (projToJson ⟨some idv, some n, some pa, some d, some ic, some c,
        some ts, pgroup, some t, pfav, pcc, pla⟩) "name" = some (.str n) ∧
      jGet (projToJson ⟨some idv, some n, some pa, some d, some ic, some c,
        some ts, pgroup, some t, pfav, pcc, pla⟩) "path" = some (.str pa) ∧
      jGet (projToJson ⟨some idv, some n, some pa, some d, some ic, some c,
        some ts, pgroup, some t, pfav, pcc, pla⟩) "description" = some (.str d) ∧
      jGet (projToJson ⟨some idv, some n, some pa, some d, some ic, some c,
        some ts, pgroup, some t, pfav, pcc, pla⟩) "icon" = some (.str ic) ∧
      jGet (projToJson ⟨some idv, some n, some pa, some d, some ic, some c,
        some ts, pgroup, some t, pfav, pcc, pla⟩) "color" = some (.str c) ∧
      jGet (projToJson ⟨some idv, some n, some pa, some d, some ic, some c,
        some ts, pgroup, some t, pfav, pcc, pla⟩) "tags" =
          some (.arr (ts.map .str)) ∧
      jGet (projToJson ⟨some idv, some n, some pa, some d, some ic, some c,
        some ts, pgroup, some t, pfav, pcc, pla⟩) "group" = pgroup.map .str ∧
      jGet (projToJson ⟨some idv, some n, some pa, some d, some ic, some c,
        some ts, pgroup, some t, pfav, pcc, pla⟩) "type" = some (.str t) ∧
      jGet (projToJson ⟨some idv, some n, some pa, some d, some ic, some c,
        some ts, pgroup, some t, pfav, pcc, pla⟩) "isFavorite" =
          pfav.map .bool ∧
      jGet (projToJson ⟨some idv, some n, some pa, some d, some ic, some c,
        some ts, pgroup, some t, pfav, pcc, pla⟩) "clickCount" = pcc.map .num ∧
      jGet (projToJson ⟨some idv, some n, some pa, some d, some ic, some c,
        some ts, pgroup, some t, pfav, pcc, pla⟩) "lastAccessed" =
          pla.map .str := by
    refine ⟨?_, ?_, ?_, ?_, ?_, ?_, ?_, ?_, ?_, ?_, ?_, ?_⟩ <;>
      simp [projToJson, jGet, List.lookup, lookup_chunk_ne, lookup_chunk_self,
        lookup_chunk_last, lookup_chunk_last_ne]
  obtain ⟨g_id, g_name, g_path, g_desc, g_icon, g_color, g_tags, g_group,
    g_type, g_fav, g_cc, g_la⟩ := hgets
  unfold validateEntry
  rw [if_neg (by simp [projToJson, jTruthy, jIsObjType])]
  rw [g_name]
  rw [if_neg (by simp [jTruthyOpt, jTruthy, isStrOpt, hn0])]
  rw [g_path]
  rw [if_neg (by simp [jTruthyOpt, jTruthy, isStrOpt, hpa0])]
  rw [g_type]
  have hc : allowedTypes.contains t = true := List.elem_eq_true_of_mem ht0
  have htne : t ≠ "" := by
    intro h
    subst h
    exact absurd ht0 (by decide)
  rw [if_neg (by simp [jTruthyOpt, jTruthy, isStrOpt, asStr?, hc, htne, ht0])]
  rw [g_id, g_desc, g_icon, g_color, g_tags]
  simp only [asStr?_some_str, asStrList?_some_arr, filterMap_asStr_map_str,
    Option.getD_some, g_group, g_fav, g_cc, g_la, asStr?_map_str,
    asBool?_map_bool, asInt?_map_num, hicclean]
  simp [hid0, hc0]

/-- The import loop maps the serialization of a normalized list back to
the list itself. -/
theorem validateAll_map_projToJson (gids : Nat → String) :
    ∀ (l : List ProjectItem) (k : Nat), (∀ p ∈ l, NormalizedItem p) →
      validateAll gids k (l.map projToJson) = .ok l := by
  intro l
  induction l with
  | nil => intro k _; rfl
  | cons p rest ih =>
    intro k h
    simp only [List.map_cons]
    unfold validateAll
    rw [validateEntry_projToJson gids k p (h p (by simp))]
    rw [ih (k + 1) (fun q hq => h q (by simp [hq]))]

/-- **C3 (amended)**: exporting a state whose entries are all
import-normalized and re-importing the exported document commits and
reproduces the projects exactly -- but the `uiSettings` record is dropped
(reset to absent) by the reimport, since the import replaces the whole
state with `{ projects }`.  The round trip is therefore lossless for
`projects` (under normalization) and lossy for `uiSettings`. -/
theorem export_import_round_trip (gids : Nat → String) (st : StoreState)
    (cb : Bool) (date : String) (h : ∀ p ∈ st.projects, NormalizedItem p) :
    importFromFile gids (.ok (exportJson st date)) st cb =
      (.ok (), { projects := st.projects, uiSettings := none },
       Ev.backup ::
         saveNotify { projects := st.projects, uiSettings := none } cb) := by
  have hobj : (jTruthy (exportJson st date) &&
      jIsObjType (exportJson st date)) = true := rfl
  have hsel : selectProjects (exportJson st date) =
      .ok (st.projects.map projToJson) := by
    unfold selectProjects
    have hp : asArr? (jGet (exportJson st date) "projects") =
        some (st.projects.map projToJson) := rfl
    rw [hp]
  unfold importFromFile
  dsimp only
  rw [if_neg (by rw [hobj]; simp), hsel]
  dsimp only
  rw [validateAll_map_projToJson gids st.projects 0 h]

/-- A normalized sample entry and a state carrying ui settings, for the
round-trip counterexample and witness. -/
def rtProj : ProjectItem :=
  { id := some "a"
    name := some "A"
    path := some "/a"
    description := some ""
    icon := some ""
    color := some "#3b82f6"
    tags := some []
    type := some "local" }

def rtState : StoreState :=
  { projects := [rtProj], uiSettings := some defaultUISettings }

/-- **C3 (counterexample)**: export-then-reimport is *not* the identity on
reachable states: for the state with one (fully normalized) project and a
materialized `uiSettings` record, the reimported state differs from the
original -- its `uiSettings` is gone. -/
theorem round_trip_counterexample :
    (importFromFile (fun _ => "g0")
      (.ok (exportJson rtState "2025-01-01T00-00-00-000Z"))
      rtState true).2.1 ≠ rtState := by
  decide

/-- Instantiation of the amended C3 at the sample state: the reimport
commits, reproduces the single project, and drops `uiSettings`. -/
theorem export_import_round_trip_witness :
    importFromFile (fun _ => "g0")
      (.ok (exportJson rtState "2025-01-01T00-00-00-000Z")) rtState true =
      (.ok (), { projects := rtState.projects, uiSettings := none },
       Ev.backup ::
         saveNotify { projects := rtState.projects, uiSettings := none } true) :=
  export_import_round_trip (fun _ => "g0") rtState true "2025-01-01T00-00-00-000Z"
    (fun p hp => by
      have hp' : p = rtProj := by simpa [rtState] using hp
      subst hp'
      exact ⟨⟨"A", rfl, by decide⟩, ⟨"/a", rfl, by decide⟩,
        ⟨"local", rfl, by decide⟩, ⟨"a", rfl, by decide⟩,
        ⟨"#3b82f6", rfl, by decide⟩, rfl, rfl, ⟨"", rfl, rfl⟩⟩)

/-! ## Backup rotation keeps the newest five -/

theorem strHasPrefixChars_append (l r : List Char) :
    strHasPrefixChars l (l ++ r) = true := by
  induction l with
  | nil => rfl
  | cons c cs ih => simp [strHasPrefixChars, ih]

theorem strStartsWith_append (p r : String) :
    strStartsWith (p ++ r) p = true := by
  show strHasPrefixChars p.data (p ++ r).data = true
  rw [String.data_append]
  exact strHasPrefixChars_append _ _

/-- The directory entry `createBackup` writes for timestamp `t`. -/
def nameOf (t : String) : String × FSEntryType := (backupName t, .file)

theorem isBackupFile_nameOf (t : String) : isBackupFile (nameOf t) = true := by
  unfold isBackupFile nameOf backupName
  simp [strStartsWith_append]

theorem insertDesc_of_lt (x : String × FSEntryType) (l : DirListing)
    (h : ∀ y ∈ l, x.1 < y.1) :
    insertDesc x l = l ++ [x] := by
  induction l with
  | nil => rfl
  | cons y ys ih =>
    have hy : ¬ (y.1 ≤ x.1) := not_le.mpr (h y (List.mem_cons_self y ys))
    simp only [insertDesc, if_neg hy]
    rw [ih (fun z hz => h z (List.mem_cons_of_mem y hz))]
    rfl

/-- Sorting descending by name via the insertion model is reversal on a
name-ascending listing. -/
theorem sortDescByName_of_pairwise (l : DirListing)
    (h : l.Pairwise (fun a b => a.1 < b.1)) :
    sortDescByName l = l.reverse := by
  induction l with
  | nil => rfl
  | cons x xs ih =>
    rw [List.pairwise_cons] at h
    show insertDesc x (sortDescByName xs) = (x :: xs).reverse
    rw [ih h.2,
      insertDesc_of_lt x xs.reverse (fun y hy => h.1 y (List.mem_reverse.mp hy)),
      List.reverse_cons]

/-- One `createBackup` call on a directory holding the (ascending,
at most five) backups of `done5`, with a strictly newer timestamp `t`:
the result holds exactly the newest five of `done5 ++ [t]`. -/
theorem createBackup_lastFive (done5 : List String) (t : String)
    (hasc : done5.Pairwise (fun a b => backupName a < backupName b))
    (hlt : ∀ a ∈ done5, backupName a < backupName t)
    (hlen : done5.length ≤ 5) :
    createBackup t (done5.map nameOf) =
      ((done5 ++ [t]).drop (done5.length + 1 - 5)).map nameOf := by
  have hA : done5.map nameOf ++ [(backupName t, FSEntryType.file)] =
      (done5 ++ [t]).map nameOf := by
    simp [nameOf]
  have hpairA : (done5 ++ [t]).Pairwise
      (fun a b => backupName a < backupName b) :=
    List.pairwise_append.mpr ⟨hasc, List.pairwise_singleton _ _,
      fun a ha b hb => by
        rw [List.mem_singleton] at hb
        subst hb
        exact hlt a ha⟩
  have hpairM : ((done5 ++ [t]).map nameOf).Pairwise (fun a b => a.1 < b.1) := by
    rw [List.pairwise_map]
    exact hpairA
  have hfilter : ((done5 ++ [t]).map nameOf).filter isBackupFile =
      (done5 ++ [t]).map nameOf :=
    List.filter_eq_self.mpr (fun e he => by
      obtain ⟨u, hu, rfl⟩ := List.mem_map.mp he
      rw [isBackupFile_nameOf u])
  unfold createBackup cleanupOldBackups
  rw [hA, hfilter, sortDescByName_of_pairwise _ hpairM]
  by_cases hsmall : done5.length + 1 ≤ 5
  · have hlenM : (((done5 ++ [t]).map nameOf).reverse).length ≤ 5 := by
      simp only [List.length_reverse, List.length_map, List.length_append,
        List.length_singleton]
      omega
    rw [List.drop_eq_nil_of_le hlenM]
    have hz : done5.length + 1 - 5 = 0 := by omega
    rw [hz]
    simp
  · have h5 : done5.length = 5 := by omega
    obtain ⟨a, d4, rfl⟩ : ∃ a d4, done5 = a :: d4 := by
      cases done5 with
      | nil => simp at h5
      | cons a d4 => exact ⟨a, d4, rfl⟩
    have hd4 : d4.length = 4 := by simpa using h5
    have hrev : (((a :: d4) ++ [t]).map nameOf).reverse =
        ((d4 ++ [t]).map nameOf).reverse ++ [nameOf a] := by
      simp
    rw [hrev]
    have hlen5 : (((d4 ++ [t]).map nameOf).reverse).length = 5 := by
      simp [hd4]
    rw [List.drop_left' hlen5]
    have hidx : (a :: d4).length + 1 - 5 = 1 := by
      simp [hd4]
    rw [hidx]
    have hconsM : ((a :: d4) ++ [t]).map nameOf =
        nameOf a :: (d4 ++ [t]).map nameOf := by
      simp
    rw [hconsM]
    have hne : ∀ u ∈ d4 ++ [t], backupName u ≠ backupName a := by
      intro u hu
      refine ne_of_gt ?_
      rcases List.mem_append.mp hu with h | h
      · exact (List.pairwise_cons.mp hasc).1 u h
      · rw [List.mem_singleton] at h
        subst h
        exact hlt a (List.mem_cons_self a d4)
    rw [List.filter_cons_of_neg (by simp [nameOf])]
    rw [List.filter_eq_self.mpr (fun e he => by
      obtain ⟨u, hu, rfl⟩ := List.mem_map.mp he
      simp [nameOf, hne u hu])]
    simp

/-- Folding `createBackup` over timestamps, starting from the newest-five
image of an already-processed history `done`, lands on the newest-five
image of the full history. -/
theorem createBackups_lastFive :
    ∀ (ts done : List String),
      ((done ++ ts).map backupName).Pairwise (· < ·) →
      createBackups ts ((done.drop (done.length - 5)).map nameOf) =
        ((done ++ ts).drop ((done ++ ts).length - 5)).map nameOf := by
  intro ts
  induction ts with
  | nil =>
    intro done h
    simp [createBackups]
  | cons t ts' ih =>
    intro done h
    have hpdone : (done.map backupName).Pairwise (· < ·) := by
      have hsub : (done.map backupName).Sublist ((done ++ t :: ts').map backupName) := by
        rw [List.map_append]
        exact List.sublist_append_left _ _
      exact h.sublist hsub
    have hasc : (done.drop (done.length - 5)).Pairwise
        (fun a b => backupName a < backupName b) := by
      have := (List.pairwise_map.mp hpdone).sublist
        (List.drop_sublist (done.length - 5) done)
      exact this
    have hlt : ∀ a ∈ done.drop (done.length - 5),
        backupName a < backupName t := by
      intro a ha
      have hmem : backupName a ∈ done.map backupName :=
        List.mem_map_of_mem _ ((List.drop_sublist _ _).mem ha)
      have hmem' : backupName t ∈ (t :: ts').map backupName := by
        simp
      have hcross := (List.pairwise_append.mp (by
        rw [← List.map_append]; exact h)).2.2
      exact hcross _ hmem _ hmem'
    have hstep := createBackup_lastFive (done.drop (done.length - 5)) t hasc hlt
      (by simp only [List.length_drop]; omega)
    show createBackups ts' (createBackup t ((done.drop (done.length - 5)).map nameOf)) = _
    rw [hstep]
    have hdd : (done.drop (done.length - 5) ++ [t]).drop
        ((done.drop (done.length - 5)).length + 1 - 5) =
        (done ++ [t]).drop ((done ++ [t]).length - 5) := by
      rw [← List.drop_append_of_le_length (by simp)]
      rw [List.drop_drop]
      congr 1
      simp only [List.length_drop, List.length_append, List.length_singleton]
      omega
    rw [hdd]
    have := ih (done ++ [t]) (by simpa using h)
    simpa using this

/-- **C9**: starting from an empty backup directory, after any sequence of
`N ≥ 5` `createBackup` calls whose timestamped filenames are pairwise
distinct and sortable (strictly increasing in call order, as the
fixed-width sanitized ISO encoding guarantees), exactly 5 backup files
remain, and they are the 5 most recent ones. -/
theorem backup_rotation_keeps_newest_five (ts : List String)
    (hN : 5 ≤ ts.length)
    (hsort : (ts.map backupName).Pairwise (· < ·)) :
    createBackups ts [] = ((ts.drop (ts.length - 5)).map nameOf) ∧
    (createBackups ts []).length = 5 := by
  have h0 := createBackups_lastFive ts [] (by simpa using hsort)
  simp only [List.drop_nil, List.map_nil, List.nil_append] at h0
  refine ⟨h0, ?_⟩
  rw [h0, List.length_map, List.length_drop]
  omega

/-- Instantiation of C9 at six concrete sortable timestamps: the newest
five survive, the oldest is pruned. -/
theorem backup_rotation_keeps_newest_five_witness :
    createBackups ["t1", "t2", "t3", "t4", "t5", "t6"] [] =
      ((["t1", "t2", "t3", "t4", "t5", "t6"].drop
        (["t1", "t2", "t3", "t4", "t5", "t6"].length - 5)).map nameOf) ∧
    (createBackups ["t1", "t2", "t3", "t4", "t5", "t6"] []).length = 5 :=
  backup_rotation_keeps_newest_five ["t1", "t2", "t3", "t4", "t5", "t6"]
    (by decide)
    (by
      have h : (List.map (fun u => (backupName u).toList)
          ["t1", "t2", "t3", "t4", "t5", "t6"]).Pairwise (· < ·) := by decide
      rw [List.pairwise_map]
      exact (List.pairwise_map.mp h).imp
        (fun hab => String.lt_iff_toList_lt.mpr hab))

end ProjectPilot
